import Mathlib

/-
Verification of the dependency-aware orchestration core of incus-compose:
a shallow embedding of `pkg/application/network.go` (network lifecycle
batches) and of the dependency-graph construction in `cmd/root.go`
(`PersistentPreRunE`), together with theorems settling the specification
claims about them.
-/

namespace IncusCompose

/-- An opaque error cause, as carried by a Go `error` value. -/
abbrev Err := String

/-- Result of looking up a key in a compose `Extensions` map: either a value
that decodes into the target string (`Get` returns `ok, nil`), or a value of
another shape so that decoding fails (`Get` returns `ok, err` with a non-nil
`err`). A missing key is `Option.none` at the lookup site. -/
inductive ExtVal where
  | value (s : String)
  | unreadable
deriving DecidableEq

/-- A declared compose network as `CreateNetworks`/`DestroyNetworks` read it:
its resolved name (`network.Name`), the external flag (`network.External`), and
its extensions map, where the `x-incus-type` / `x-incus-uplink` overrides live. -/
structure Network where
  name : String
  external : Bool
  extensions : List (String × ExtVal)
deriving DecidableEq

/-- Modelled from the spec: one Resource Resolver result entry, an
`(endpoint-client, remote-name)` pair as returned by `ParseServers` (whose
implementation is not under src/); the endpoint client is identified here by an
endpoint id string, and `name` is the resolved remote-side name. -/
structure Resource where
  server : String
  name : String
deriving DecidableEq

/-- The fields of `api.NetworksPost` that `CreateNetworks` fills in: the
network name, its type, and the config map (a single optional
`"network" -> uplink` entry). -/
structure NetworksPost where
  name : String
  type : String
  config : List (String × String)
deriving DecidableEq

/-- One remote control-plane call issued by a lifecycle batch. -/
inductive RemoteCall where
  | createNetwork (endpoint : String) (req : NetworksPost)
  | deleteNetwork (endpoint : String) (name : String)
deriving DecidableEq

/-- The environment a lifecycle batch runs against: `parseServers` is the
Resource Resolver (modelled from the spec: it returns a sequence of resolved
endpoints together with a Go-style optional error), and
`createNetwork`/`deleteNetwork` are the remote client verbs, returning `none`
on success and `some e` on failure. -/
structure Env where
  parseServers : String → List Resource × Option Err
  createNetwork : String → NetworksPost → Option Err
  deleteNetwork : String → String → Option Err

/-- Outcome of `CreateNetworks`: the list of remote calls issued, and either a
normal return (`ok`, carrying the returned `error`, `none` for nil) or a
runtime panic (out-of-range index). -/
inductive CreateResult where
  | ok (calls : List RemoteCall) (err : Option Err)
  | panicked (calls : List RemoteCall)
deriving DecidableEq

/-- Outcome of `DestroyNetworks`: the list of remote calls issued, and either a
normal return carrying the joined error list (`errors.Join`; `[]` is a nil
error) or a runtime panic. -/
inductive DestroyResult where
  | ok (calls : List RemoteCall) (errs : List Err)
  | panicked (calls : List RemoteCall)
deriving DecidableEq

/-- Prefix the call trace of a `CreateResult` with calls issued earlier. -/
def CreateResult.prepend (cs : List RemoteCall) : CreateResult → CreateResult
  | .ok calls e => .ok (cs ++ calls) e
  | .panicked calls => .panicked (cs ++ calls)

/-- Prefix the call trace and joined-error list of a `DestroyResult` with the
calls and errors of an earlier loop iteration (a panic discards the joined
errors, as a Go panic returns no value, but the calls were still issued). -/
def DestroyResult.prepend (cs : List RemoteCall) (es : List Err) :
    DestroyResult → DestroyResult
  | .ok calls errs => .ok (cs ++ calls) (es ++ errs)
  | .panicked calls => .panicked (cs ++ calls)

/-- Calls issued by a create batch, whether it returned or panicked. -/
def CreateResult.calls : CreateResult → List RemoteCall
  | .ok calls _ => calls
  | .panicked calls => calls

/-- Calls issued by a destroy batch, whether it returned or panicked. -/
def DestroyResult.calls : DestroyResult → List RemoteCall
  | .ok calls _ => calls
  | .panicked calls => calls

/-- Whether a create batch ended in a runtime panic. -/
def CreateResult.isPanicked : CreateResult → Bool
  | .ok _ _ => false
  | .panicked _ => true

/-- Whether a destroy batch ended in a runtime panic. -/
def DestroyResult.isPanicked : DestroyResult → Bool
  | .ok _ _ => false
  | .panicked _ => true

/-- The effective network type: `network.Extensions.Get("x-incus-type", &nettype)`
sets it when the key is present and decodes; otherwise (`!ok || err != nil`)
the run-level default `c.Network.Type` is used. -/
def effType (n : Network) (dT : String) : String :=
  match n.extensions.lookup "x-incus-type" with
  | some (ExtVal.value v) => v
  | _ => dT

/-- The effective uplink, by the same rule as `effType`, with key
`x-incus-uplink` and run-level default `c.Network.Uplink`. -/
def effUplink (n : Network) (dU : String) : String :=
  match n.extensions.lookup "x-incus-uplink" with
  | some (ExtVal.value v) => v
  | _ => dU

/-- The `api.NetworksPost` value `CreateNetworks` builds for one network:
`Name` from the compose network, `Type` the effective type, and
`Config["network"] = uplink` exactly when the effective type is `"ovn"`. -/
def requestFor (n : Network) (dT dU : String) : NetworksPost :=
  let nettype := effType n dT
  let uplink := effUplink n dU
  { name := n.name
    type := nettype
    config := if nettype == "ovn" then [("network", uplink)] else [] }

/-- Shallow embedding of `Compose.CreateNetworks` (network.go):
iterate over the networks, skip external ones, build the request, resolve the
remote (`return err` on a resolution error), take `resources[0]` (a panic when
the list is empty), call `CreateNetwork` and `return err` on failure. -/
def createNetworks (env : Env) (dT dU : String) : List Network → CreateResult
  | [] => CreateResult.ok [] none
  | n :: rest =>
    if n.external then createNetworks env dT dU rest
    else
      let req := requestFor n dT dU
      let pr := env.parseServers n.name
      match pr.2 with
      | some e => CreateResult.ok [] (some e)
      | none =>
        match pr.1 with
        | [] => CreateResult.panicked []
        | r :: _ =>
          match env.createNetwork r.server req with
          | some e => CreateResult.ok [RemoteCall.createNetwork r.server req] (some e)
          | none =>
            CreateResult.prepend [RemoteCall.createNetwork r.server req]
              (createNetworks env dT dU rest)

/-- Shallow embedding of `Compose.DestroyNetworks` (network.go):
iterate over the networks, skip external ones, resolve the remote and join a
resolution error into `funcError`, then index `resources[0]` regardless (a
panic when the list is empty), call `DeleteNetwork` on the resolved remote
name, join its error, and continue with the next network. -/
def destroyNetworks (env : Env) : List Network → DestroyResult
  | [] => DestroyResult.ok [] []
  | n :: rest =>
    if n.external then destroyNetworks env rest
    else
      let pr := env.parseServers n.name
      match pr.1 with
      | [] => DestroyResult.panicked []
      | r :: _ =>
        DestroyResult.prepend [RemoteCall.deleteNetwork r.server r.name]
          (pr.2.toList ++ (env.deleteNetwork r.server r.name).toList)
          (destroyNetworks env rest)

/-- Follows the spec's words (§4.4): the effective type is the per-resource
override when the `x-incus-type` extension is present and readable, and the
run-level default otherwise. Stated separately from `effType` so the code can
be compared against the spec's precedence rule. -/
def specEffectiveType (n : Network) (dT : String) : String :=
  match n.extensions.lookup "x-incus-type" with
  | some (ExtVal.value v) => v
  | some ExtVal.unreadable => dT
  | none => dT

/-- Follows the spec's words (§4.4): the effective uplink is the per-resource
override when the `x-incus-uplink` extension is present and readable, and the
run-level default otherwise. -/
def specEffectiveUplink (n : Network) (dU : String) : String :=
  match n.extensions.lookup "x-incus-uplink" with
  | some (ExtVal.value v) => v
  | some ExtVal.unreadable => dU
  | none => dU

/-- The create request the spec prescribes: the network's name, the spec's
effective type, and a config holding `"network" -> uplink` exactly for `ovn`. -/
def specRequest (n : Network) (dT dU : String) : NetworksPost :=
  { name := n.name
    type := specEffectiveType n dT
    config :=
      if specEffectiveType n dT == "ovn" then
        [("network", specEffectiveUplink n dU)]
      else [] }

/-- A directed graph as built in `rootCmd.PersistentPreRunE`: vertex names in
insertion order and directed edges in insertion order. -/
structure DGraph where
  vertices : List String
  edges : List (String × String)
deriving DecidableEq

/-- `graph.AddVertex` with its error discarded (`_ = g.AddVertex(name)`): a
vertex already present yields `ErrVertexAlreadyExists` and the graph is
unchanged; otherwise the vertex is added. -/
def addVertexD (g : DGraph) (v : String) : DGraph :=
  if v ∈ g.vertices then g else { g with vertices := g.vertices ++ [v] }

/-- `graph.AddEdge` with its error discarded (`_ = g.AddEdge(name, dep)`):
the edge is added only when both endpoints are vertices (else
`ErrVertexNotFound`) and the edge is not already present (else
`ErrEdgeAlreadyExists`); in each error case the graph is unchanged. The
`Acyclic()` trait used at `graph.New` only marks the graph as acyclic; the
library runs its cycle check in `AddEdge` only under the separate
`PreventCycles()` trait, which root.go does not set, so cycle-closing edges
and self-loops are added like any other edge. -/
def addEdgeD (g : DGraph) (a b : String) : DGraph :=
  if a ∈ g.vertices ∧ b ∈ g.vertices then
    if (a, b) ∈ g.edges then g
    else { g with edges := g.edges ++ [(a, b)] }
  else g

/-- Shallow embedding of the graph construction in `PersistentPreRunE`:
`g := graph.New(StringHash, Directed(), Acyclic())`, a first loop adding one
vertex per service, and a second loop adding one edge per declared dependency,
all returned errors discarded. A service set is given as a list of
`(name, dependsOn)` pairs, the iteration order of the Go map. -/
def buildGraph (svcs : List (String × List String)) : DGraph :=
  let g0 := svcs.foldl (fun g s => addVertexD g s.1) { vertices := [], edges := [] }
  svcs.foldl (fun g s => s.2.foldl (fun g2 d => addEdgeD g2 s.1 d) g) g0

/-- The declared service names, in iteration order. -/
def svcNames (svcs : List (String × List String)) : List String :=
  svcs.map Prod.fst

/-- The declared dependency edges `service -> dependency`, in iteration
order. -/
def declaredEdges (svcs : List (String × List String)) : List (String × String) :=
  svcs.foldr (fun s acc => (s.2.map (fun d => (s.1, d))) ++ acc) []

lemma addVertexD_edges (g : DGraph) (v : String) : (addVertexD g v).edges = g.edges := by
  unfold addVertexD
  split <;> rfl

lemma mem_addVertexD (g : DGraph) (v w : String) :
    w ∈ (addVertexD g v).vertices ↔ w ∈ g.vertices ∨ w = v := by
  unfold addVertexD
  split
  · next hv =>
    constructor
    · exact Or.inl
    · rintro (h | rfl)
      · exact h
      · exact hv
  · simp

lemma addVertexD_nodup (g : DGraph) (v : String) (h : g.vertices.Nodup) :
    (addVertexD g v).vertices.Nodup := by
  unfold addVertexD
  split
  · exact h
  · next hv => simp [List.nodup_append, h, hv]

lemma foldl_addVertex_mem (svcs : List (String × List String)) :
    ∀ (g : DGraph) (w : String),
      w ∈ (svcs.foldl (fun g2 s => addVertexD g2 s.1) g).vertices ↔
        w ∈ g.vertices ∨ w ∈ svcNames svcs := by
  induction svcs with
  | nil => intro g w; simp [svcNames]
  | cons s rest ih =>
    intro g w
    rw [List.foldl_cons, ih, mem_addVertexD]
    simp [svcNames, or_assoc]

lemma foldl_addVertex_nodup (svcs : List (String × List String)) :
    ∀ (g : DGraph), g.vertices.Nodup →
      (svcs.foldl (fun g2 s => addVertexD g2 s.1) g).vertices.Nodup := by
  induction svcs with
  | nil => intro g h; exact h
  | cons s rest ih => intro g h; exact ih _ (addVertexD_nodup g s.1 h)

lemma foldl_addVertex_edges (svcs : List (String × List String)) :
    ∀ (g : DGraph), (svcs.foldl (fun g2 s => addVertexD g2 s.1) g).edges = g.edges := by
  induction svcs with
  | nil => intro g; rfl
  | cons s rest ih => intro g; rw [List.foldl_cons, ih, addVertexD_edges]

lemma addEdgeD_vertices (g : DGraph) (a b : String) : (addEdgeD g a b).vertices = g.vertices := by
  unfold addEdgeD
  split
  · split <;> rfl
  · rfl

lemma foldl_addEdge_vertices (todo : List (String × String)) :
    ∀ (g : DGraph), (todo.foldl (fun g2 p => addEdgeD g2 p.1 p.2) g).vertices = g.vertices := by
  induction todo with
  | nil => intro g; rfl
  | cons p rest ih => intro g; rw [List.foldl_cons, ih, addEdgeD_vertices]

lemma foldl_addEdge_invariant :
    ∀ (todo : List (String × String)) (g : DGraph),
      g.edges.Nodup →
      ((todo.foldl (fun g2 p => addEdgeD g2 p.1 p.2) g).edges.Nodup ∧
        ∀ q, q ∈ (todo.foldl (fun g2 p => addEdgeD g2 p.1 p.2) g).edges ↔
          q ∈ g.edges ∨ (q ∈ todo ∧ q.1 ∈ g.vertices ∧ q.2 ∈ g.vertices)) := by
  intro todo
  induction todo with
  | nil =>
    intro g hnd
    exact ⟨hnd, fun q => by simp⟩
  | cons p rest ih =>
    obtain ⟨a, b⟩ := p
    intro g hnd
    rw [List.foldl_cons]
    by_cases hv : a ∈ g.vertices ∧ b ∈ g.vertices
    · by_cases hmem : (a, b) ∈ g.edges
      · have hstep : addEdgeD g a b = g := by
          unfold addEdgeD
          rw [if_pos hv, if_pos hmem]
        rw [hstep]
        obtain ⟨h1, h2⟩ := ih g hnd
        refine ⟨h1, fun q => ?_⟩
        rw [h2 q]
        constructor
        · rintro (h | ⟨hq, hv1, hv2⟩)
          · exact Or.inl h
          · exact Or.inr ⟨by simp [hq], hv1, hv2⟩
        · rintro (h | ⟨hq, hv1, hv2⟩)
          · exact Or.inl h
          · rcases List.mem_cons.1 hq with rfl | hr
            · exact Or.inl hmem
            · exact Or.inr ⟨hr, hv1, hv2⟩
      · have hstep : (addEdgeD g a b).edges = g.edges ++ [(a, b)] := by
          unfold addEdgeD
          rw [if_pos hv, if_neg hmem]
        obtain ⟨h1, h2⟩ := ih (addEdgeD g a b)
          (by
            rw [hstep]
            simp [List.nodup_append, hnd, hmem])
        refine ⟨h1, fun q => ?_⟩
        rw [h2 q, hstep, addEdgeD_vertices]
        constructor
        · rintro (h | ⟨hq, hv1, hv2⟩)
          · rcases List.mem_append.1 h with h | h
            · exact Or.inl h
            · have hq : q = (a, b) := by simpa using h
              refine Or.inr ⟨by simp [hq], ?_, ?_⟩
              · rw [hq]; exact hv.1
              · rw [hq]; exact hv.2
          · exact Or.inr ⟨by simp [hq], hv1, hv2⟩
        · rintro (h | ⟨hq, hv1, hv2⟩)
          · exact Or.inl (List.mem_append_left _ h)
          · rcases List.mem_cons.1 hq with rfl | hq2
            · exact Or.inl (List.mem_append_right _ (by simp))
            · exact Or.inr ⟨hq2, hv1, hv2⟩
    · have hstep : addEdgeD g a b = g := by
        unfold addEdgeD
        rw [if_neg hv]
      rw [hstep]
      obtain ⟨h1, h2⟩ := ih g hnd
      refine ⟨h1, fun q => ?_⟩
      rw [h2 q]
      constructor
      · rintro (h | ⟨hq, hv1, hv2⟩)
        · exact Or.inl h
        · exact Or.inr ⟨by simp [hq], hv1, hv2⟩
      · rintro (h | ⟨hq, hv1, hv2⟩)
        · exact Or.inl h
        · rcases List.mem_cons.1 hq with rfl | hq2
          · exact absurd ⟨hv1, hv2⟩ hv
          · exact Or.inr ⟨hq2, hv1, hv2⟩

lemma declaredEdges_cons (s : String × List String) (rest : List (String × List String)) :
    declaredEdges (s :: rest) = (s.2.map fun d => (s.1, d)) ++ declaredEdges rest := rfl

lemma foldl_edges_flatten (svcs : List (String × List String)) :
    ∀ (g : DGraph),
      svcs.foldl (fun g2 s => s.2.foldl (fun g3 d => addEdgeD g3 s.1 d) g2) g =
        (declaredEdges svcs).foldl (fun g2 p => addEdgeD g2 p.1 p.2) g := by
  induction svcs with
  | nil => intro g; rfl
  | cons s rest ih =>
    intro g
    rw [List.foldl_cons, ih, declaredEdges_cons, List.foldl_append, List.foldl_map]

lemma buildGraph_eq (svcs : List (String × List String)) :
    buildGraph svcs =
      (declaredEdges svcs).foldl (fun g2 p => addEdgeD g2 p.1 p.2)
        (svcs.foldl (fun g2 s => addVertexD g2 s.1) { vertices := [], edges := [] }) := by
  unfold buildGraph
  exact foldl_edges_flatten svcs _

lemma buildGraph_vertices_mem (svcs : List (String × List String)) (v : String) :
    v ∈ (buildGraph svcs).vertices ↔ v ∈ svcNames svcs := by
  rw [buildGraph_eq, foldl_addEdge_vertices, foldl_addVertex_mem]
  simp

lemma buildGraph_vertices_nodup (svcs : List (String × List String)) :
    (buildGraph svcs).vertices.Nodup := by
  rw [buildGraph_eq, foldl_addEdge_vertices]
  exact foldl_addVertex_nodup svcs _ (by simp)

lemma declaredEdges_fst_mem (svcs : List (String × List String)) :
    ∀ p ∈ declaredEdges svcs, p.1 ∈ svcNames svcs := by
  induction svcs with
  | nil => intro p hp; simp [declaredEdges] at hp
  | cons s rest ih =>
    intro p hp
    rw [declaredEdges_cons] at hp
    rcases List.mem_append.1 hp with h | h
    · obtain ⟨d, hd, rfl⟩ := List.mem_map.1 h
      simp [svcNames]
    · have := ih p h
      simp only [svcNames, List.map_cons, List.mem_cons]
      exact Or.inr (by simpa [svcNames] using this)

/-- The built graph's edge set, with no side conditions: an edge is present
exactly when it is declared and both its endpoints are declared service
names (the only `AddEdge` errors are vertex-not-found and duplicate-edge,
both discarded). -/
lemma buildGraph_edges_mem (svcs : List (String × List String)) (q : String × String) :
    q ∈ (buildGraph svcs).edges ↔
      q ∈ declaredEdges svcs ∧ q.1 ∈ svcNames svcs ∧ q.2 ∈ svcNames svcs := by
  rw [buildGraph_eq]
  obtain ⟨h1, h2⟩ := foldl_addEdge_invariant (declaredEdges svcs)
    (svcs.foldl (fun g2 s => addVertexD g2 s.1) { vertices := [], edges := [] })
    (by rw [foldl_addVertex_edges]; exact List.nodup_nil)
  rw [h2 q, foldl_addVertex_edges]
  simp only [foldl_addVertex_mem]
  simp

lemma buildGraph_edges_nodup (svcs : List (String × List String)) :
    (buildGraph svcs).edges.Nodup := by
  rw [buildGraph_eq]
  exact (foldl_addEdge_invariant (declaredEdges svcs) _
    (by rw [foldl_addVertex_edges]; exact List.nodup_nil)).1

lemma declaredEdges_perm (l1 l2 : List (String × List String)) (h : l1.Perm l2) :
    (declaredEdges l1).Perm (declaredEdges l2) := by
  induction h with
  | nil => exact List.Perm.refl _
  | cons x h ih =>
    rw [declaredEdges_cons, declaredEdges_cons]
    exact ih.append_left _
  | swap x y l =>
    rw [declaredEdges_cons, declaredEdges_cons, declaredEdges_cons, declaredEdges_cons]
    rw [← List.append_assoc, ← List.append_assoc]
    exact (List.perm_append_comm).append_right _
  | trans h1 h2 ih1 ih2 => exact ih1.trans ih2

lemma CreateResult.prepend_calls (cs : List RemoteCall) (r : CreateResult) :
    (CreateResult.prepend cs r).calls = cs ++ r.calls := by
  cases r <;> rfl

lemma CreateResult.prependC_isPanicked (cs : List RemoteCall) (r : CreateResult) :
    (CreateResult.prepend cs r).isPanicked = r.isPanicked := by
  cases r <;> rfl

lemma DestroyResult.prependD_isPanicked (cs : List RemoteCall) (es : List Err)
    (r : DestroyResult) :
    (DestroyResult.prepend cs es r).isPanicked = r.isPanicked := by
  cases r <;> rfl

lemma effType_eq_spec (n : Network) (dT : String) : effType n dT = specEffectiveType n dT := by
  unfold effType specEffectiveType
  cases h : n.extensions.lookup "x-incus-type" with
  | none => rfl
  | some v => cases v <;> rfl

lemma effUplink_eq_spec (n : Network) (dU : String) :
    effUplink n dU = specEffectiveUplink n dU := by
  unfold effUplink specEffectiveUplink
  cases h : n.extensions.lookup "x-incus-uplink" with
  | none => rfl
  | some v => cases v <;> rfl

lemma requestFor_eq_specRequest (n : Network) (dT dU : String) :
    requestFor n dT dU = specRequest n dT dU := by
  simp only [requestFor, specRequest, effType_eq_spec, effUplink_eq_spec]

/-- Follows the spec's words (§4.4, destruction): the expected outcome of a
destroy batch — one delete call per non-external network, at its first
resolved endpoint, with every resolution error and every delete error joined,
in batch order; external networks contribute nothing. -/
def expectedDestroy (env : Env) : List Network → List RemoteCall × List Err
  | [] => ([], [])
  | n :: rest =>
    let prev := expectedDestroy env rest
    if n.external then prev
    else
      match (env.parseServers n.name).1.head? with
      | some r =>
        (RemoteCall.deleteNetwork r.server r.name :: prev.1,
          ((env.parseServers n.name).2.toList ++
            (env.deleteNetwork r.server r.name).toList) ++ prev.2)
      | none => prev

lemma destroy_characterize (env : Env) :
    ∀ (nets : List Network),
      (∀ n ∈ nets, n.external = false → (env.parseServers n.name).1 ≠ []) →
      destroyNetworks env nets =
        DestroyResult.ok (expectedDestroy env nets).1 (expectedDestroy env nets).2 := by
  intro nets
  induction nets with
  | nil => intro _; rfl
  | cons n rest ih =>
    intro hpre
    have hih := ih (fun m hm hm2 => hpre m (by simp [hm]) hm2)
    cases hext : n.external with
    | true =>
      have h1 : destroyNetworks env (n :: rest) = destroyNetworks env rest := by
        simp [destroyNetworks, hext]
      have h2 : expectedDestroy env (n :: rest) = expectedDestroy env rest := by
        simp [expectedDestroy, hext]
      rw [h1, h2, hih]
    | false =>
      have hne : (env.parseServers n.name).1 ≠ [] := hpre n (by simp) hext
      obtain ⟨r, tl, hrt⟩ : ∃ r tl, (env.parseServers n.name).1 = r :: tl := by
        cases hl : (env.parseServers n.name).1 with
        | nil => exact absurd hl hne
        | cons r tl => exact ⟨r, tl, rfl⟩
      simp only [destroyNetworks, expectedDestroy, hext, hrt]
      simp [hih, DestroyResult.prepend]

lemma create_success_characterize (env : Env) (dT dU : String) :
    ∀ (nets : List Network) (res : Network → Resource),
      (∀ n ∈ nets, n.external = false →
        (env.parseServers n.name).2 = none ∧
        (env.parseServers n.name).1.head? = some (res n) ∧
        env.createNetwork (res n).server (requestFor n dT dU) = none) →
      createNetworks env dT dU nets =
        CreateResult.ok
          (nets.filterMap (fun n =>
            if n.external then none
            else some (RemoteCall.createNetwork (res n).server (specRequest n dT dU)))) none := by
  intro nets res
  induction nets with
  | nil => intro _; rfl
  | cons n rest ih =>
    intro hpre
    have hih := ih (fun m hm hm2 => hpre m (by simp [hm]) hm2)
    cases hext : n.external with
    | true =>
      have h1 : createNetworks env dT dU (n :: rest) = createNetworks env dT dU rest := by
        simp [createNetworks, hext]
      rw [h1, hih]
      simp [List.filterMap_cons, hext]
    | false =>
      obtain ⟨h1, h2, h3⟩ := hpre n (by simp) hext
      obtain ⟨tl, hrt⟩ : ∃ tl, (env.parseServers n.name).1 = res n :: tl := by
        cases hl : (env.parseServers n.name).1 with
        | nil => rw [hl] at h2; simp at h2
        | cons r tl =>
          rw [hl] at h2
          simp only [List.head?_cons, Option.some.injEq] at h2
          subst h2
          exact ⟨tl, rfl⟩
      simp only [createNetworks, hext, h1, hrt, h3]
      simp [hih, CreateResult.prepend, requestFor_eq_specRequest, List.filterMap_cons, hext]

lemma destroy_no_panic (env : Env) (nets : List Network)
    (hpre : ∀ n ∈ nets, n.external = false → (env.parseServers n.name).1 ≠ []) :
    (destroyNetworks env nets).isPanicked = false := by
  rw [destroy_characterize env nets hpre]
  rfl

lemma create_no_panic (env : Env) (dT dU : String) :
    ∀ (nets : List Network),
      (∀ n ∈ nets, n.external = false → (env.parseServers n.name).1 ≠ []) →
      (createNetworks env dT dU nets).isPanicked = false := by
  intro nets
  induction nets with
  | nil => intro _; rfl
  | cons n rest ih =>
    intro hpre
    have hih := ih (fun m hm hm2 => hpre m (by simp [hm]) hm2)
    cases hext : n.external with
    | true => simpa [createNetworks, hext] using hih
    | false =>
      have hne := hpre n (by simp) hext
      cases hp2 : (env.parseServers n.name).2 with
      | some e => simp [createNetworks, hext, hp2, CreateResult.isPanicked]
      | none =>
        cases hp1 : (env.parseServers n.name).1 with
        | nil => exact absurd hp1 hne
        | cons r tl =>
          cases hc : env.createNetwork r.server (requestFor n dT dU) with
          | some e => simp [createNetworks, hext, hp2, hp1, hc, CreateResult.isPanicked]
          | none =>
            simp [createNetworks, hext, hp2, hp1, hc, CreateResult.prependC_isPanicked, hih]

lemma create_panics_head (env : Env) (dT dU : String) (n : Network) (rest : List Network)
    (hext : n.external = false) (hps : env.parseServers n.name = ([], none)) :
    (createNetworks env dT dU (n :: rest)).isPanicked = true := by
  simp [createNetworks, hext, hps, CreateResult.isPanicked]

lemma destroy_panics_head (env : Env) (n : Network) (rest : List Network)
    (hext : n.external = false) (hps : (env.parseServers n.name).1 = []) :
    (destroyNetworks env (n :: rest)).isPanicked = true := by
  simp [destroyNetworks, hext, hps, DestroyResult.isPanicked]

lemma mem_expectedDestroy_errs (env : Env) :
    ∀ (nets : List Network) (n : Network) (e : Err),
      n ∈ nets → n.external = false → (env.parseServers n.name).1 ≠ [] →
      (env.parseServers n.name).2 = some e →
      e ∈ (expectedDestroy env nets).2 := by
  intro nets
  induction nets with
  | nil => intro n e hm; simp at hm
  | cons m rest ih =>
    intro n e hm hext hne herr
    rcases List.mem_cons.1 hm with rfl | hm2
    · obtain ⟨r, tl, hrt⟩ : ∃ r tl, (env.parseServers n.name).1 = r :: tl := by
        cases hl : (env.parseServers n.name).1 with
        | nil => exact absurd hl hne
        | cons r tl => exact ⟨r, tl, rfl⟩
      simp [expectedDestroy, hext, hrt, herr]
    · have htail := ih n e hm2 hext hne herr
      cases hmext : m.external with
      | true => simpa [expectedDestroy, hmext] using htail
      | false =>
        cases hh : (env.parseServers m.name).1.head? with
        | none => simpa [expectedDestroy, hmext, hh] using htail
        | some r =>
          simp only [expectedDestroy, hmext, hh]
          simp [htail]

/-- A network named net-a with a bridge type override (spec test scenario 2). -/
def netA : Network :=
  { name := "net-a", external := false,
    extensions := [("x-incus-type", ExtVal.value "bridge")] }

/-- A network named net-b of type ovn with uplink up0 (spec test scenario 2). -/
def netB : Network :=
  { name := "net-b", external := false,
    extensions := [("x-incus-type", ExtVal.value "ovn"),
      ("x-incus-uplink", ExtVal.value "up0")] }

/-- A network with no extensions, taking all run-level defaults. -/
def netPlain : Network := { name := "net-p", external := false, extensions := [] }

/-- A network with an unreadable type extension and an uplink override. -/
def netW : Network :=
  { name := "w", external := false,
    extensions := [("x-incus-type", ExtVal.unreadable),
      ("x-incus-uplink", ExtVal.value "upX")] }

/-- An environment where every name resolves to one local endpoint and all
remote calls succeed. -/
def envAllOk : Env :=
  { parseServers := fun name => ([{ server := "local", name := name }], none)
    createNetwork := fun _ _ => none
    deleteNetwork := fun _ _ => none }

/-- An environment where resolution succeeds but creating net-a fails and
every delete fails. -/
def envCreateAFails : Env :=
  { parseServers := fun name => ([{ server := "ep", name := name }], none)
    createNetwork := fun _ req => if req.name == "net-a" then some "create-a-failed" else none
    deleteNetwork := fun _ name => some (name ++ "-delete-failed") }

/-- An environment where resolving net-a fails, returning an empty endpoint
list, and everything else succeeds. -/
def envResolveAFails : Env :=
  { parseServers := fun name =>
      if name == "net-a" then ([], some "resolve-a-failed")
      else ([{ server := "local", name := name }], none)
    createNetwork := fun _ _ => none
    deleteNetwork := fun _ _ => none }

/-- An environment where resolving net-a reports an error but still returns
an endpoint, and all remote calls succeed. -/
def envResolveAErrNonempty : Env :=
  { parseServers := fun name =>
      if name == "net-a" then ([{ server := "local", name := name }], some "resolve-a-failed")
      else ([{ server := "local", name := name }], none)
    createNetwork := fun _ _ => none
    deleteNetwork := fun _ _ => none }

/-- An environment whose resolver returns an empty endpoint list without
reporting an error. -/
def envEmptyNoErr : Env :=
  { parseServers := fun _ => ([], none)
    createNetwork := fun _ _ => none
    deleteNetwork := fun _ _ => none }

/-- C1 counterexample: with two independent non-external networks, a remote
create failure on the first makes `CreateNetworks` return that error alone,
and the second network is never attempted (no create call for it is issued),
so the batch is not continued and no aggregation happens on create. -/
theorem c1_counterexample :
    createNetworks envCreateAFails "bridge" "" [netA, netB] =
      CreateResult.ok
        [RemoteCall.createNetwork "ep" { name := "net-a", type := "bridge", config := [] }]
        (some "create-a-failed") ∧
      RemoteCall.createNetwork "ep"
          { name := "net-b", type := "ovn", config := [("network", "up0")] } ∉
        (createNetworks envCreateAFails "bridge" "" [netA, netB]).calls := by
  decide

/-- C1 amended: during creation the first failing network aborts the batch —
the batch result is exactly that network's create call and its error, with no
further attempts; during destruction every non-external network is attempted
and every failure is joined into the aggregated error list, as long as each
non-external network resolves to a non-empty endpoint list. -/
theorem c1_first_failure_semantics :
    (∀ (env : Env) (dT dU : String) (n : Network) (rest : List Network)
        (r : Resource) (rs : List Resource) (e : Err),
        n.external = false →
        env.parseServers n.name = (r :: rs, none) →
        env.createNetwork r.server (requestFor n dT dU) = some e →
        createNetworks env dT dU (n :: rest) =
          CreateResult.ok [RemoteCall.createNetwork r.server (requestFor n dT dU)] (some e)) ∧
    (∀ (env : Env) (nets : List Network),
        (∀ n ∈ nets, n.external = false → (env.parseServers n.name).1 ≠ []) →
        destroyNetworks env nets =
          DestroyResult.ok (expectedDestroy env nets).1 (expectedDestroy env nets).2) := by
  constructor
  · intro env dT dU n rest r rs e hext hps hc
    have hp2 : (env.parseServers n.name).2 = none := by rw [hps]
    have hp1 : (env.parseServers n.name).1 = r :: rs := by rw [hps]
    simp [createNetworks, hext, hp2, hp1, hc]
  · exact fun env nets h => destroy_characterize env nets h

/-- C1 witness: the amended statement at concrete inputs — create aborts with
the single error on net-a; destroy of a two-network batch matches the
spec-side expected calls and joined errors. -/
theorem c1_witness :
    createNetworks envCreateAFails "bridge" "" [netA] =
      CreateResult.ok
        [RemoteCall.createNetwork "ep" { name := "net-a", type := "bridge", config := [] }]
        (some "create-a-failed") ∧
    destroyNetworks envCreateAFails [netA, netB] =
      DestroyResult.ok (expectedDestroy envCreateAFails [netA, netB]).1
        (expectedDestroy envCreateAFails [netA, netB]).2 := by
  constructor
  · have h := c1_first_failure_semantics.1 envCreateAFails "bridge" "" netA []
      { server := "ep", name := "net-a" } [] "create-a-failed" (by decide) (by decide) (by decide)
    exact h.trans (by decide)
  · exact c1_first_failure_semantics.2 envCreateAFails [netA, netB] (by decide)

/-- C4: external networks are skipped entirely by both batches — each batch
behaves exactly as if the external networks were removed from the input, so
no remote call and no resolution outcome of an external network can influence
the run. -/
theorem c4_external_skipped (env : Env) (dT dU : String) :
    ∀ (nets : List Network),
      createNetworks env dT dU nets =
        createNetworks env dT dU (nets.filter (fun n => !n.external)) ∧
      destroyNetworks env nets =
        destroyNetworks env (nets.filter (fun n => !n.external)) := by
  intro nets
  induction nets with
  | nil => exact ⟨rfl, rfl⟩
  | cons n rest ih =>
    cases hext : n.external with
    | true =>
      have hf : (n :: rest).filter (fun m => !m.external) =
          rest.filter (fun m => !m.external) := by
        simp [List.filter_cons, hext]
      rw [hf]
      constructor
      · have h1 : createNetworks env dT dU (n :: rest) = createNetworks env dT dU rest := by
          simp [createNetworks, hext]
        rw [h1]
        exact ih.1
      · have h1 : destroyNetworks env (n :: rest) = destroyNetworks env rest := by
          simp [destroyNetworks, hext]
        rw [h1]
        exact ih.2
    | false =>
      have hf : (n :: rest).filter (fun m => !m.external) =
          n :: rest.filter (fun m => !m.external) := by
        simp [List.filter_cons, hext]
      rw [hf]
      constructor
      · cases hp2 : (env.parseServers n.name).2 with
        | some e => simp [createNetworks, hext, hp2]
        | none =>
          cases hp1 : (env.parseServers n.name).1 with
          | nil => simp [createNetworks, hext, hp2, hp1]
          | cons r tl =>
            cases hc : env.createNetwork r.server (requestFor n dT dU) with
            | some e => simp [createNetworks, hext, hp2, hp1, hc]
            | none => simp [createNetworks, hext, hp2, hp1, hc, ih.1]
      · cases hp1 : (env.parseServers n.name).1 with
        | nil => simp [destroyNetworks, hext, hp1]
        | cons r tl => simp [destroyNetworks, hext, hp1, ih.2]

/-- C5: for a non-external network that resolves, the create request actually
issued (the first call of the batch) is exactly the spec's request: the
x-incus-type / x-incus-uplink extension value when present and readable, the
run-level default otherwise, with the ovn uplink config rule. -/
theorem c5_override_precedence (env : Env) (dT dU : String) (n : Network)
    (rest : List Network) (r : Resource) (rs : List Resource)
    (hext : n.external = false)
    (hps : env.parseServers n.name = (r :: rs, none)) :
    (createNetworks env dT dU (n :: rest)).calls.head? =
      some (RemoteCall.createNetwork r.server (specRequest n dT dU)) := by
  have hp2 : (env.parseServers n.name).2 = none := by rw [hps]
  have hp1 : (env.parseServers n.name).1 = r :: rs := by rw [hps]
  have hrs := requestFor_eq_specRequest n dT dU
  cases hc : env.createNetwork r.server (specRequest n dT dU) with
  | some e =>
    simp [createNetworks, hext, hp2, hp1, hrs, hc, CreateResult.calls]
  | none =>
    have hstep : createNetworks env dT dU (n :: rest) =
        CreateResult.prepend [RemoteCall.createNetwork r.server (specRequest n dT dU)]
          (createNetworks env dT dU rest) := by
      simp [createNetworks, hext, hp2, hp1, hrs, hc]
    rw [hstep, CreateResult.prepend_calls]
    simp

/-- C5 witness: a network with an unreadable type extension and a readable
uplink override, under run-level default type ovn: the issued request takes
the default type and the overridden uplink. -/
theorem c5_witness :
    (createNetworks envAllOk "ovn" "updef" [netW]).calls.head? =
      some (RemoteCall.createNetwork "local"
        { name := "w", type := "ovn", config := [("network", "upX")] }) := by
  have h := c5_override_precedence envAllOk "ovn" "updef" netW []
    { server := "local", name := "w" } [] (by decide) (by decide)
  exact h.trans (by decide)

/-- C6: a fully successful create batch issues exactly one create-network
call per non-external network, in batch order, each carrying the network's
name, its effective type, and the ovn uplink config exactly when the
effective type is ovn, and returns no error. -/
theorem c6_exact_create_calls (env : Env) (dT dU : String) (nets : List Network)
    (res : Network → Resource)
    (hpre : ∀ n ∈ nets, n.external = false →
      (env.parseServers n.name).2 = none ∧
      (env.parseServers n.name).1.head? = some (res n) ∧
      env.createNetwork (res n).server (requestFor n dT dU) = none) :
    createNetworks env dT dU nets =
      CreateResult.ok
        (nets.filterMap (fun n =>
          if n.external then none
          else some (RemoteCall.createNetwork (res n).server (specRequest n dT dU)))) none :=
  create_success_characterize env dT dU nets res hpre

/-- C6 witness: spec scenario 2 — creating net-a (bridge) and net-b
(ovn, uplink up0) issues exactly the two expected create-network calls. -/
theorem c6_witness :
    createNetworks envAllOk "" "" [netA, netB] =
      CreateResult.ok
        [RemoteCall.createNetwork "local" { name := "net-a", type := "bridge", config := [] },
          RemoteCall.createNetwork "local"
            { name := "net-b", type := "ovn", config := [("network", "up0")] }] none := by
  have h := c6_exact_create_calls envAllOk "" "" [netA, netB]
    (fun n => { server := "local", name := n.name }) (by decide)
  exact h.trans (by decide)

/-- C7 counterexample: a resolution failure on the first network of a create
batch aborts the whole batch — nothing at all is attempted, including the
remaining unrelated network, and the returned error is just the resolution
error rather than an aggregate including other outcomes. -/
theorem c7_counterexample :
    createNetworks envResolveAFails "bridge" "" [netA, netB] =
      CreateResult.ok [] (some "resolve-a-failed") ∧
      RemoteCall.createNetwork "local"
          { name := "net-b", type := "ovn", config := [("network", "up0")] } ∉
        (createNetworks envResolveAFails "bridge" "" [netA, netB]).calls := by
  decide

/-- C7 amended: in `CreateNetworks` a resolution error aborts the whole batch
immediately, returning that error alone with no remote call issued for the
affected network or any later one; in `DestroyNetworks` a resolution error is
folded into the aggregated error and every non-external network in the batch
is still attempted (given that each resolves to a non-empty endpoint list —
otherwise the loop panics instead, see the first-endpoint claim). -/
theorem c7_resolution_error_semantics :
    (∀ (env : Env) (dT dU : String) (n : Network) (rest : List Network) (e : Err),
        n.external = false →
        (env.parseServers n.name).2 = some e →
        createNetworks env dT dU (n :: rest) = CreateResult.ok [] (some e)) ∧
    (∀ (env : Env) (nets : List Network) (n : Network) (e : Err),
        n ∈ nets → n.external = false →
        (env.parseServers n.name).2 = some e →
        (∀ m ∈ nets, m.external = false → (env.parseServers m.name).1 ≠ []) →
        destroyNetworks env nets =
          DestroyResult.ok (expectedDestroy env nets).1 (expectedDestroy env nets).2 ∧
          e ∈ (expectedDestroy env nets).2) := by
  constructor
  · intro env dT dU n rest e hext hp2
    simp [createNetworks, hext, hp2]
  · intro env nets n e hm hext hp2 hpre
    exact ⟨destroy_characterize env nets hpre,
      mem_expectedDestroy_errs env nets n e hm hext (hpre n hm hext) hp2⟩

/-- C7 witness: the amended statement at concrete inputs — a create batch
aborts on net-a's resolution error; a destroy batch with a reported-but-
nonempty resolution for net-a still attempts both networks and carries the
resolution error in its aggregate. -/
theorem c7_witness :
    createNetworks envResolveAFails "bridge" "" [netA, netB] =
      CreateResult.ok [] (some "resolve-a-failed") ∧
    (destroyNetworks envResolveAErrNonempty [netA, netB] =
      DestroyResult.ok (expectedDestroy envResolveAErrNonempty [netA, netB]).1
        (expectedDestroy envResolveAErrNonempty [netA, netB]).2 ∧
      "resolve-a-failed" ∈ (expectedDestroy envResolveAErrNonempty [netA, netB]).2) := by
  constructor
  · exact c7_resolution_error_semantics.1 envResolveAFails "bridge" "" netA [netB]
      "resolve-a-failed" (by decide) (by decide)
  · exact c7_resolution_error_semantics.2 envResolveAErrNonempty [netA, netB] netA
      "resolve-a-failed" (by decide) (by decide) (by decide) (by decide)

/-- C10: both batches index the first resolved endpoint unchecked. If every
non-external network resolves to a non-empty endpoint list, neither batch
panics; a create batch panics when a non-external network resolves to an
empty list with no error; a destroy batch panics whenever a non-external
network resolves to an empty list — even when `ParseServers` has returned an
error, since `resources[0]` is indexed after the error is joined. -/
theorem c10_first_endpoint_panic :
    (∀ (env : Env) (dT dU : String) (nets : List Network),
        (∀ n ∈ nets, n.external = false → (env.parseServers n.name).1 ≠ []) →
        (createNetworks env dT dU nets).isPanicked = false ∧
        (destroyNetworks env nets).isPanicked = false) ∧
    (∀ (env : Env) (dT dU : String) (n : Network) (rest : List Network),
        n.external = false → env.parseServers n.name = ([], none) →
        (createNetworks env dT dU (n :: rest)).isPanicked = true) ∧
    (∀ (env : Env) (n : Network) (rest : List Network),
        n.external = false → (env.parseServers n.name).1 = [] →
        (destroyNetworks env (n :: rest)).isPanicked = true) := by
  refine ⟨?_, ?_, ?_⟩
  · intro env dT dU nets hpre
    exact ⟨create_no_panic env dT dU nets hpre, destroy_no_panic env nets hpre⟩
  · exact create_panics_head
  · exact destroy_panics_head

/-- C10 witness: the three parts at concrete inputs — panic-freedom under the
non-empty-resolution precondition, a create panic on an empty successful
resolution, and a destroy panic on net-a whose resolution errored with an
empty list. -/
theorem c10_witness :
    (createNetworks envAllOk "" "" [netA, netB]).isPanicked = false ∧
    (destroyNetworks envAllOk [netA, netB]).isPanicked = false ∧
    (createNetworks envEmptyNoErr "" "" [netPlain]).isPanicked = true ∧
    (destroyNetworks envResolveAFails [netA]).isPanicked = true := by
  refine ⟨(c10_first_endpoint_panic.1 envAllOk "" "" [netA, netB] (by decide)).1,
    (c10_first_endpoint_panic.1 envAllOk "" "" [netA, netB] (by decide)).2,
    c10_first_endpoint_panic.2.1 envEmptyNoErr "" "" netPlain [] (by decide) (by decide),
    c10_first_endpoint_panic.2.2 envResolveAFails netA [] (by decide) (by decide)⟩

/-- C2 counterexample: for the 2-cycle a depends on b, b depends on a, the
graph build step does not fail at all — it completes and exposes the full
cyclic graph (both declared edges present, since root.go sets only the
Acyclic trait and not PreventCycles, so AddEdge performs no cycle check). -/
theorem c2_counterexample :
    buildGraph [("a", ["b"]), ("b", ["a"])] =
      { vertices := ["a", "b"], edges := [("a", "b"), ("b", "a")] } := by
  decide

/-- C2 amended: the build step cannot fail with a CycleError: every
`AddVertex`/`AddEdge` error is discarded and no cycle check runs (the
Acyclic trait alone does not enable cycle prevention; root.go does not set
PreventCycles), so every declared edge whose dependency names a declared
service — including every edge of a declared cycle — ends up in the graph
exposed to subsequent steps. -/
theorem c2_cycle_edges_kept :
    ∀ (svcs : List (String × List String)) (q : String × String),
      q ∈ declaredEdges svcs → q.2 ∈ svcNames svcs → q ∈ (buildGraph svcs).edges := by
  intro svcs q h1 h2
  exact (buildGraph_edges_mem svcs q).2 ⟨h1, declaredEdges_fst_mem svcs q h1, h2⟩

/-- C2 witness: in the 2-cycle example the cycle-closing declared edge is
present in the built graph. -/
theorem c2_witness :
    ("b", "a") ∈ (buildGraph [("a", ["b"]), ("b", ["a"])]).edges :=
  c2_cycle_edges_kept [("a", ["b"]), ("b", ["a"])] ("b", "a") (by decide) (by decide)

/-- C3 counterexample: for a service x depending on the missing name ghost
the build step does not fail with an UnknownDependencyError — it completes,
silently dropping the edge to the unknown name. -/
theorem c3_counterexample :
    buildGraph [("x", ["ghost"])] = { vertices := ["x"], edges := [] } ∧
    ("x", "ghost") ∈ declaredEdges [("x", ["ghost"])] := by
  decide

/-- C3 amended: the build step does not fail on an unknown dependency; the
`AddEdge` vertex-not-found error is discarded and the offending edge is
dropped, so every edge of the built graph has both endpoints among the
declared service names. The build itself issues no remote calls (it is a
pure function of the service set). -/
theorem c3_unknown_dependency_dropped :
    ∀ (svcs : List (String × List String)) (p : String × String),
      p ∈ (buildGraph svcs).edges → p.1 ∈ svcNames svcs ∧ p.2 ∈ svcNames svcs := by
  intro svcs p hp
  exact ((buildGraph_edges_mem svcs p).1 hp).2

/-- C3 witness: a present edge of a well-formed build has both endpoints
among the declared names. -/
theorem c3_witness :
    ("b", "a").1 ∈ svcNames [("a", []), ("b", ["a"])] ∧
    ("b", "a").2 ∈ svcNames [("a", []), ("b", ["a"])] :=
  c3_unknown_dependency_dropped [("a", []), ("b", ["a"])] ("b", "a") (by decide)

/-- C8 counterexample: a declared dependency on a name outside the service
set yields no edge in the built graph, so the graph does not contain one
edge per declared dependency. -/
theorem c8_counterexample :
    ("x", "ghost") ∈ declaredEdges [("x", ["ghost"]), ("y", [])] ∧
    ("x", "ghost") ∉ (buildGraph [("x", ["ghost"]), ("y", [])]).edges := by
  decide

/-- C8 amended: when every declared dependency names a declared service, the
built graph has exactly one vertex per declared service and exactly one
directed edge per declared dependency pair, and no other vertices or edges;
an edge naming an unknown service is silently dropped. No acyclicity is
required: cycle-closing edges are added like any other (AddEdge runs no
cycle check without the PreventCycles trait). -/
theorem c8_graph_shape (svcs : List (String × List String))
    (hclosed : ∀ p ∈ declaredEdges svcs, p.2 ∈ svcNames svcs) :
    (buildGraph svcs).vertices.Nodup ∧
    (∀ v, v ∈ (buildGraph svcs).vertices ↔ v ∈ svcNames svcs) ∧
    (buildGraph svcs).edges.Nodup ∧
    (∀ q, q ∈ (buildGraph svcs).edges ↔ q ∈ declaredEdges svcs) := by
  refine ⟨buildGraph_vertices_nodup svcs, fun v => buildGraph_vertices_mem svcs v,
    buildGraph_edges_nodup svcs, fun q => ?_⟩
  rw [buildGraph_edges_mem]
  constructor
  · exact fun h => h.1
  · intro h
    exact ⟨h, declaredEdges_fst_mem svcs q h, hclosed q h⟩

/-- C8 witness: scenario 1's service set (db, api depends on db, web depends
on api) builds with distinct vertices and contains the declared edge from
web to api. -/
theorem c8_witness :
    (buildGraph [("db", []), ("api", ["db"]), ("web", ["api"])]).vertices.Nodup ∧
    ("web", "api") ∈ (buildGraph [("db", []), ("api", ["db"]), ("web", ["api"])]).edges := by
  have h := c8_graph_shape [("db", []), ("api", ["db"]), ("web", ["api"])] (by decide)
  exact ⟨h.1, (h.2.2.2 ("web", "api")).2 (by decide)⟩

/-- C9: graph construction is deterministic: all vertices are inserted
before any edge, and an edge is kept exactly when it is declared and both
endpoints are declared service names, so any two iteration orders of the
same service map produce the same graph — the same vertex set and the same
edge set — with no side conditions on the input. -/
theorem c9_build_deterministic (l l2 : List (String × List String)) (hperm : l.Perm l2) :
    (∀ v, v ∈ (buildGraph l).vertices ↔ v ∈ (buildGraph l2).vertices) ∧
    (∀ q, q ∈ (buildGraph l).edges ↔ q ∈ (buildGraph l2).edges) := by
  have hde : (declaredEdges l).Perm (declaredEdges l2) := declaredEdges_perm l l2 hperm
  have hnames : ∀ v, v ∈ svcNames l ↔ v ∈ svcNames l2 := fun v =>
    (hperm.map Prod.fst).mem_iff
  constructor
  · intro v
    rw [buildGraph_vertices_mem, buildGraph_vertices_mem]
    exact hnames v
  · intro q
    rw [buildGraph_edges_mem, buildGraph_edges_mem]
    exact and_congr hde.mem_iff (and_congr (hnames q.1) (hnames q.2))

/-- C9 witness: the two iteration orders of the cyclic two-service map agree
on edge membership — even the cycle case is deterministic. -/
theorem c9_witness :
    ("b", "a") ∈ (buildGraph [("a", ["b"]), ("b", ["a"])]).edges ↔
      ("b", "a") ∈ (buildGraph [("b", ["a"]), ("a", ["b"])]).edges :=
  (c9_build_deterministic [("a", ["b"]), ("b", ["a"])] [("b", ["a"]), ("a", ["b"])]
    (by decide)).2 ("b", "a")

end IncusCompose
